import Mathlib

/-!
Verification of the dataset-analysis engine of a sales-report generator.

The engine under study ingests a list of records (rows mapping column names
to raw scalar cell values) and derives column types, per-column statistics,
data-quality totals (missing cells, duplicate rows, outliers), pairwise
Pearson correlations, IQR-fence outliers and time trends.

Numbers are modelled as exact rationals (the source operates on IEEE
doubles; all concrete inputs used below are small integers and decimal
fractions for which double arithmetic is exact, and the `0.4` seasonality
threshold comparison is shown in a comment at its use site to agree with
the exact-rational comparison on integer counts).  The JavaScript values
`Infinity`, `-Infinity` and `NaN`, which the engine produces by dividing
by zero and by coercing non-numeric cells with `Number(...)`, are modelled
explicitly by the `ExtQ` type.  Standard deviations land in `ℝ` through
`Real.sqrt`; to keep the pipeline executable the column record stores the
population variance (a rational) and the standard deviation is exposed as
its square root.
-/

namespace SalesReport

/-- A raw JavaScript cell value: `null`, `undefined`, a (finite) number, a
string, or a boolean.  The source receives these from the CSV/Excel
parsers. -/
inductive Value where
  | vNull : Value
  | vUndef : Value
  | vNum : ℚ → Value
  | vStr : String → Value
  | vBool : Bool → Value
deriving DecidableEq, Repr

open Value

/-- A record/row: an association list from column name to cell value, in
object-key insertion order (JavaScript object semantics: keys unique). -/
abbrev Row := List (String × Value)

/-- JavaScript `row[colName]`: the value stored under the key, or
`undefined` when the key is absent. -/
def getCell (row : Row) (name : String) : Value :=
  ((row.find? fun p => p.1 == name).map Prod.snd).getD vUndef

/-- The `val !== null && val !== undefined` presence test used throughout
the source when extracting column values. -/
def isPresent : Value → Bool
  | vNull => false
  | vUndef => false
  | _ => true

/-- The missing-cell test of `analyzeDataQuality`:
`value === null || value === undefined || value === '' || value === 'null'
|| value === 'undefined'`. -/
def isMissingCell : Value → Bool
  | vNull => true
  | vUndef => true
  | vStr "" => true
  | vStr "null" => true
  | vStr "undefined" => true
  | _ => false

/-- Parse a nonempty list of decimal digits into a natural number. -/
def parseDigitsAux : List Char → ℕ → Option ℕ
  | [], acc => some acc
  | c :: cs, acc =>
    if c.isDigit then parseDigitsAux cs (acc * 10 + (c.toNat - 48)) else none

/-- Nonempty all-digit string to `ℕ`. -/
def parseNatStr (l : List Char) : Option ℕ :=
  if l.isEmpty then none else parseDigitsAux l 0

/-- Unsigned decimal literal (`"12"`, `"1.5"`, `".5"`, `"5."`).  Models the
decimal core of JavaScript `Number(string)`; exponent and hexadecimal
forms are not modelled (no claim depends on them). -/
def parseUnsigned (l : List Char) : Option ℚ :=
  let intPart := l.takeWhile (fun c => c ≠ '.')
  let rest := l.dropWhile (fun c => c ≠ '.')
  match rest with
  | [] => (parseNatStr intPart).map (fun n => (n : ℚ))
  | _ :: frac =>
    if frac.any (fun c => c = '.') then none
    else if intPart.isEmpty ∧ frac.isEmpty then none
    else
      let ip := if intPart.isEmpty then some 0 else parseNatStr intPart
      let fp := if frac.isEmpty then some 0 else parseNatStr frac
      match ip, fp with
      | some i, some f => some ((i : ℚ) + (f : ℚ) / (10 : ℚ) ^ frac.length)
      | _, _ => none

/-- ASCII whitespace trim (JavaScript `Number` ignores surrounding
whitespace). -/
def trimWS (l : List Char) : List Char :=
  ((l.dropWhile Char.isWhitespace).reverse.dropWhile Char.isWhitespace).reverse

/-- JavaScript `Number(string)`: trims whitespace, the empty string is `0`,
otherwise an optionally signed decimal literal; `none` models `NaN`. -/
def strToNum (s : String) : Option ℚ :=
  match trimWS s.toList with
  | [] => some 0
  | '-' :: rest => (parseUnsigned rest).map (fun q => -q)
  | '+' :: rest => parseUnsigned rest
  | l => parseUnsigned l

/-- JavaScript `Number(value)`; `none` models `NaN`
(`Number(null) = 0`, `Number(undefined) = NaN`, booleans give `0`/`1`). -/
def toNumber : Value → Option ℚ
  | vNull => some 0
  | vUndef => none
  | vNum q => some q
  | vStr s => strToNum s
  | vBool b => some (if b then 1 else 0)

/-- The test `typeof val === 'number' || (typeof val === 'string' &&
!isNaN(Number(val)))`: the per-value numeric test of type inference. -/
def isNumericish : Value → Bool
  | vNum _ => true
  | vStr s => (strToNum s).isSome
  | _ => false

/-- The boolean-like token test of type inference. -/
def isBoolish : Value → Bool
  | vBool _ => true
  | vNum q => q == 0 || q == 1
  | vStr s => s == "0" || s == "1" || s == "true" || s == "false" ||
      s == "yes" || s == "no" || s == "y" || s == "n"
  | _ => false

/-- Modelled simplification of the permissive JavaScript `Date.parse`,
restricted to ISO `YYYY-MM-DD` strings mapped to a monotone day index; all
other strings are unparseable.  No claim settled below depends on the
datetime branch of type inference. -/
def jsDateParse (s : String) : Option ℚ :=
  match s.toList.splitOn '-' with
  | [y, m, d] =>
    match parseNatStr y, parseNatStr m, parseNatStr d with
    | some yn, some mn, some dn =>
      if y.length = 4 ∧ m.length = 2 ∧ d.length = 2 ∧
          1 ≤ mn ∧ mn ≤ 12 ∧ 1 ≤ dn ∧ dn ≤ 31 then
        some (((yn * 12 + mn) * 31 + dn : ℕ) : ℚ)
      else none
    | _, _, _ => none
  | _ => none

/-- The test `!isNaN(Date.parse(String(val)))` for sampled values. -/
def isDateish : Value → Bool
  | vStr s => (jsDateParse s).isSome
  | _ => false

/-- Extended rational: a finite value, `Infinity`, `-Infinity`, or `NaN`.
Models the JavaScript doubles the trend/outlier arithmetic can produce. -/
inductive ExtQ where
  | fin : ℚ → ExtQ
  | pinf : ExtQ
  | ninf : ExtQ
  | nan : ExtQ
deriving DecidableEq, Repr

namespace ExtQ

def neg : ExtQ → ExtQ
  | fin q => fin (-q)
  | pinf => ninf
  | ninf => pinf
  | nan => nan

def add : ExtQ → ExtQ → ExtQ
  | fin a, fin b => fin (a + b)
  | fin _, pinf => pinf
  | fin _, ninf => ninf
  | pinf, fin _ => pinf
  | ninf, fin _ => ninf
  | pinf, pinf => pinf
  | ninf, ninf => ninf
  | pinf, ninf => nan
  | ninf, pinf => nan
  | _, _ => nan

def sub (a b : ExtQ) : ExtQ := add a (neg b)

def mul : ExtQ → ExtQ → ExtQ
  | fin a, fin b => fin (a * b)
  | fin a, pinf => if 0 < a then pinf else if a < 0 then ninf else nan
  | fin a, ninf => if 0 < a then ninf else if a < 0 then pinf else nan
  | pinf, fin b => if 0 < b then pinf else if b < 0 then ninf else nan
  | ninf, fin b => if 0 < b then ninf else if b < 0 then pinf else nan
  | pinf, pinf => pinf
  | ninf, ninf => pinf
  | pinf, ninf => ninf
  | ninf, pinf => ninf
  | _, _ => nan

/-- JavaScript division, including the division-by-zero behaviour that is
central to the trend percent-change degeneracy (`x/0` is `±Infinity` for
`x ≠ 0` and `NaN` for `x = 0`; the literal `0` divisor is `+0`). -/
def div : ExtQ → ExtQ → ExtQ
  | fin a, fin b =>
    if b = 0 then (if 0 < a then pinf else if a < 0 then ninf else nan)
    else fin (a / b)
  | fin _, pinf => fin 0
  | fin _, ninf => fin 0
  | pinf, fin b => if b < 0 then ninf else pinf
  | ninf, fin b => if b < 0 then pinf else ninf
  | _, _ => nan

/-- JavaScript `<` on doubles: any comparison with `NaN` is false. -/
def ltB : ExtQ → ExtQ → Bool
  | fin a, fin b => a < b
  | fin _, pinf => true
  | pinf, fin _ => false
  | fin _, ninf => false
  | ninf, fin _ => true
  | ninf, pinf => true
  | pinf, ninf => false
  | pinf, pinf => false
  | ninf, ninf => false
  | _, _ => false

/-- A total `≤`-style order used to model the result of the JavaScript
array sort with a numeric comparator.  `NaN` keys make the comparator
return `NaN`, for which the engine-level order is unspecified; the model
fixes `NaN` (and `-Infinity`) first.  No claim settled below sorts a list
containing a `NaN` key. -/
def leB : ExtQ → ExtQ → Bool
  | nan, _ => true
  | _, nan => false
  | ninf, _ => true
  | _, ninf => false
  | fin a, fin b => a ≤ b
  | fin _, pinf => true
  | pinf, fin _ => false
  | pinf, pinf => true

def sum (l : List ExtQ) : ExtQ := l.foldl add (fin 0)

end ExtQ

/-- Coercion `Number(value)` into the extended rationals (`NaN` kept). -/
def jsNumE (v : Value) : ExtQ := (toNumber v).elim ExtQ.nan ExtQ.fin

/-- Ascending JavaScript numeric sort `(a, b) => a - b` on rationals,
modelled by the stable insertion sort. -/
def jsSortQ (l : List ℚ) : List ℚ := l.insertionSort (fun a b => a ≤ b)

/-- The same sort on extended rationals (see `ExtQ.leB`). -/
def jsSortE (l : List ExtQ) : List ExtQ :=
  l.insertionSort (fun a b => ExtQ.leB a b = true)

/-- Rounding to two decimals, as in `x.toFixed(2)` reparsed.  ECMA
`toFixed` picks the larger candidate on ties, matching `round`. -/
def round2q (q : ℚ) : ℚ := ((round (100 * q) : ℤ) : ℚ) / 100

/-- Rounding `toFixed(2)` on an extended rational (`Infinity`/`NaN` print as
themselves). -/
def roundE2 : ExtQ → ExtQ
  | ExtQ.fin q => ExtQ.fin (round2q q)
  | e => e

/-! ## Type inference and per-column statistics (`detectColumnTypes`) -/

/-- The five column types of the source's `DataColumn.type`. -/
inductive ColType where
  | numeric | boolean | datetime | categorical | text
deriving DecidableEq, Repr

/-- The numeric statistics block attached to numeric columns.  The source
stores `stdDev = Math.sqrt(variance)`; the model stores the (rational)
population variance and exposes the standard deviation through
`colStdDev` below, keeping the record decidable. -/
structure NumStats where
  min : ℚ
  max : ℚ
  mean : ℚ
  median : ℚ
  variance : ℚ
  quartiles : ℚ × ℚ × ℚ
deriving DecidableEq, Repr

/-- Column metadata produced by `detectColumnTypes`. -/
structure DataColumn where
  name : String
  type : ColType
  uniqueValues : ℕ
  missingValues : ℕ
  missingPercentage : ℚ
  stats? : Option NumStats
deriving DecidableEq, Repr

/-- The inference sample size `Math.min(100, data.length)`. -/
def sampleSizeOf (data : List Row) : ℕ := min 100 data.length

/-- The sample `data.slice(0, sampleSize)`: the first at-most-100 rows. -/
def sampleOf (data : List Row) : List Row := data.take (sampleSizeOf data)

/-- The non-missing values of one column over an arbitrary row list:
`rows.map(row => row[colName]).filter(val => val !== null && val !==
undefined)`. -/
def presentValues (rows : List Row) (name : String) : List Value :=
  (rows.map fun row => getCell row name).filter isPresent

/-- The sampled non-missing values used by type inference/statistics. -/
def colValues (data : List Row) (name : String) : List Value :=
  presentValues (sampleOf data) name

/-- Coerced values `values.map(v => Number(v))` of the statistics block.  The numeric
branch only runs when every value passed `isNumericish`, so the coercion
never fails there; the `0` default is unreachable padding. -/
def numericSampleValues (data : List Row) (name : String) : List ℚ :=
  (colValues data name).map fun v => (toNumber v).getD 0

/-- The statistics block of `detectColumnTypes` on the coerced numeric
values.  When the value list is empty the source computes
`NaN`/`±Infinity` placeholders (from `Math.min()` of no arguments and
`0/0`); the model records the block as absent. -/
def numericStatsOf : List ℚ → Option NumStats
  | [] => none
  | v :: rest =>
    let nv := v :: rest
    let sorted := jsSortQ nv
    let n := nv.length
    let mean := nv.foldl (· + ·) 0 / (n : ℚ)
    let middle := n / 2
    some { min := rest.foldl min v
           max := rest.foldl max v
           mean := mean
           median :=
             if n % 2 = 0 then
               (sorted.getD (middle - 1) 0 + sorted.getD middle 0) / 2
             else sorted.getD middle 0
           variance := nv.foldl (fun s x => s + (x - mean) ^ 2) 0 / (n : ℚ)
           quartiles := (sorted.getD (n / 4) 0, sorted.getD (n / 2) 0,
             sorted.getD (3 * n / 4) 0) }

/-- One `DataColumn` as built inside the `columnNames.forEach` body of
`detectColumnTypes`. -/
def buildColumn (data : List Row) (colName : String) : DataColumn :=
  let sample := sampleOf data
  let values := colValues data colName
  let uniqueValues := values.dedup.length
  let missingCount := sample.length - values.length
  let missingPercentage := ((missingCount : ℚ) / (sample.length : ℚ)) * 100
  let type :=
    if values.all isNumericish then ColType.numeric
    else if values.all isBoolish then ColType.boolean
    else if values.all isDateish then ColType.datetime
    else if (uniqueValues : ℚ) < (sampleSizeOf data : ℚ) * (0.2 : ℚ) ∧
        0 < values.length then ColType.categorical
    else ColType.text
  { name := colName, type := type, uniqueValues := uniqueValues,
    missingValues := missingCount, missingPercentage := missingPercentage,
    stats? :=
      if type = ColType.numeric then
        numericStatsOf (numericSampleValues data colName)
      else none }

/-- Function `detectColumnTypes`: one column per key of the first record, inferred
over the first at-most-100 rows; empty dataset gives the empty mapping. -/
def detectColumnTypes (data : List Row) : List DataColumn :=
  match data with
  | [] => []
  | first :: _ => (first.map Prod.fst).map (buildColumn data)

/-- The standard deviation stored by the source:
`Math.sqrt(variance)`. -/
noncomputable def colStdDev (c : DataColumn) : Option ℝ :=
  c.stats?.map fun st => Real.sqrt (st.variance : ℝ)

/-- The specification-side characterization of the numeric column
statistics (claim C1): arithmetic mean, population variance, and — for
ANY ascending sorted permutation of the values — min/max as the first and
last sorted elements, median via the middle index (averaging the two
central elements at even length), and nearest-rank quartiles at
`floor(N*0.25)`, `floor(N*0.5)`, `floor(N*0.75)`. -/
def statsSpec (vals : List ℚ) (st : NumStats) : Prop :=
  vals ≠ [] ∧
  st.mean = vals.sum / (vals.length : ℚ) ∧
  st.variance =
    ((vals.map fun x => (x - st.mean) ^ 2).sum) / (vals.length : ℚ) ∧
  ∀ sorted : List ℚ, vals.Perm sorted → sorted.Sorted (· ≤ ·) →
    sorted.head? = some st.min ∧ sorted.getLast? = some st.max ∧
    st.median =
      (if vals.length % 2 = 0 then
        (sorted.getD (vals.length / 2 - 1) 0 +
          sorted.getD (vals.length / 2) 0) / 2
      else sorted.getD (vals.length / 2) 0) ∧
    st.quartiles = (sorted.getD (vals.length / 4) 0,
      sorted.getD (vals.length / 2) 0, sorted.getD (3 * vals.length / 4) 0)

/-! ## Data quality (`analyzeDataQuality`) -/

/-- A serialized cell as it appears in `JSON.stringify(row)`. -/
inductive SVal where
  | snull : SVal
  | snum : ℚ → SVal
  | sstr : String → SVal
  | sbool : Bool → SVal
deriving DecidableEq, Repr

/-- Serialization `JSON.stringify(row)` modelled structurally: keys in insertion order,
`undefined`-valued entries dropped (JavaScript object serialization). -/
def serializeRow (row : Row) : List (String × SVal) :=
  row.filterMap fun p =>
    match p.2 with
    | vUndef => none
    | vNull => some (p.1, SVal.snull)
    | vNum q => some (p.1, SVal.snum q)
    | vStr s => some (p.1, SVal.sstr s)
    | vBool b => some (p.1, SVal.sbool b)

structure DataQuality where
  missingValues : ℕ
  duplicateRows : ℕ
  outliers : ℕ
deriving DecidableEq, Repr

/-- The per-column outlier count of `analyzeDataQuality`'s second pass:
rows of the FULL dataset whose `Number`-coerced cell passes `!isNaN` and
falls outside the column's IQR fences.  Columns without a statistics
block (`column.quartiles` junk on an all-missing sampled column, whose
`NaN` fences flag nothing) contribute zero. -/
def qualityOutlierCount (data : List Row) (col : DataColumn) : ℕ :=
  if col.type = ColType.numeric then
    match col.stats? with
    | none => 0
    | some st =>
      let q1 := st.quartiles.1
      let q3 := st.quartiles.2.2
      let iqr := q3 - q1
      let lowerBound := q1 - 1.5 * iqr
      let upperBound := q3 + 1.5 * iqr
      data.countP fun row =>
        match toNumber (getCell row col.name) with
        | none => false
        | some v => decide (v < lowerBound ∨ upperBound < v)
  else 0

/-- Function `analyzeDataQuality`: missing-cell total (all rows and columns),
duplicate-row total by structural serialization, and the outlier total
summed over the columns of `detectColumnTypes data` (the sample-based
second pass). -/
def analyzeDataQuality (data : List Row) : DataQuality :=
  if data.isEmpty then ⟨0, 0, 0⟩
  else
    { missingValues :=
        data.foldl (fun acc row =>
          (row.map Prod.snd).foldl
            (fun a v => if isMissingCell v then a + 1 else a) acc) 0
      duplicateRows := data.length - (data.map serializeRow).dedup.length
      outliers :=
        (detectColumnTypes data).foldl
          (fun acc col => acc + qualityOutlierCount data col) 0 }

/-- Modelled from the spec/claim wording for C6 ("recomputing column
type/quartiles over the full set, independent of the 100-row sample"):
`buildColumn` with the whole record sequence as the sample. -/
def buildColumnFull (data : List Row) (colName : String) : DataColumn :=
  let values := presentValues data colName
  let uniqueValues := values.dedup.length
  let missingCount := data.length - values.length
  let missingPercentage := ((missingCount : ℚ) / (data.length : ℚ)) * 100
  let type :=
    if values.all isNumericish then ColType.numeric
    else if values.all isBoolish then ColType.boolean
    else if values.all isDateish then ColType.datetime
    else if (uniqueValues : ℚ) < (data.length : ℚ) * (0.2 : ℚ) ∧
        0 < values.length then ColType.categorical
    else ColType.text
  { name := colName, type := type, uniqueValues := uniqueValues,
    missingValues := missingCount, missingPercentage := missingPercentage,
    stats? :=
      if type = ColType.numeric then
        numericStatsOf (values.map fun v => (toNumber v).getD 0)
      else none }

/-- Modelled from the spec/claim wording for C6: column inference with no
sampling cap. -/
def detectColumnTypesFull (data : List Row) : List DataColumn :=
  match data with
  | [] => []
  | first :: _ => (first.map Prod.fst).map (buildColumnFull data)

/-- Modelled from the spec/claim wording for C6: the outlier total the
claim describes — per-column counts over the full dataset with the column
types and quartiles also recomputed over the full record set. -/
def claimOutlierTotal (data : List Row) : ℕ :=
  ((detectColumnTypesFull data).map fun col =>
    qualityOutlierCount data col).sum

/-! ## Outlier detector (`identifyOutliers`) -/

structure OutlierInfo where
  count : ℕ
  percentage : ℚ
  boundaries : ExtQ × ExtQ
  examples : List Row
deriving DecidableEq, Repr

/-- The IQR fences of `identifyOutliers` for one column, computed from the
full dataset's non-missing values after `Number` coercion (a coercion
`NaN` stays in the list, as in the source). -/
def outlierFences (data : List Row) (name : String) : ExtQ × ExtQ :=
  let values := (presentValues data name).map jsNumE
  let sorted := jsSortE values
  let q1 := sorted.getD (sorted.length / 4) ExtQ.nan
  let q3 := sorted.getD (3 * sorted.length / 4) ExtQ.nan
  let iqr := ExtQ.sub q3 q1
  (ExtQ.sub q1 (ExtQ.mul (ExtQ.fin 1.5) iqr),
   ExtQ.add q3 (ExtQ.mul (ExtQ.fin 1.5) iqr))

/-- The per-row fence test of `identifyOutliers`:
`Number(row[colName]) < lowerBound || Number(row[colName]) > upperBound`
(false on a `NaN` coercion or `NaN` fence). -/
def rowFlagged (name : String) (fences : ExtQ × ExtQ) (row : Row) : Bool :=
  ExtQ.ltB (jsNumE (getCell row name)) fences.1 ||
    ExtQ.ltB fences.2 (jsNumE (getCell row name))

/-- The rows of the full dataset flagged by the fence test. -/
def flaggedRows (data : List Row) (name : String) : List Row :=
  data.filter (rowFlagged name (outlierFences data name))

/-- Function `identifyOutliers`: per numeric column, skip under 5 non-missing
values, report only columns with at least one flagged row. -/
def identifyOutliers (data : List Row) (columns : List DataColumn) :
    List (String × OutlierInfo) :=
  (columns.filter fun c => decide (c.type = ColType.numeric)).filterMap
    fun column =>
      if (presentValues data column.name).length < 5 then none
      else
        let outliers := flaggedRows data column.name
        if outliers.isEmpty then none
        else
          some (column.name,
            { count := outliers.length
              percentage :=
                round2q ((outliers.length : ℚ) / (data.length : ℚ) * 100)
              boundaries := outlierFences data column.name
              examples := outliers.take 5 })

/-! ## Correlation finder (`findCorrelations`) -/

inductive Strength where
  | weak | moderate | strong
deriving DecidableEq, Repr

inductive Direction where
  | positive | negative
deriving DecidableEq, Repr

/-- A returned correlation record.  The source stores
`correlation.toFixed(2)` (a string) and later reparses it with `Number`;
the model stores the rounded coefficient directly. -/
structure CorrRec where
  columns : String × String
  correlation : ℝ
  strength : Strength
  direction : Direction

/-- The ordered pairs `i < j` of the source's double loop. -/
def pairsOf {α : Type} : List α → List (α × α)
  | [] => []
  | x :: xs => (xs.map fun y => (x, y)) ++ pairsOf xs

/-- Rows where both columns are non-missing, coerced with `Number`
(`none` models a `NaN` coercion). -/
def pairedCells (data : List Row) (c1 c2 : String) :
    List (Option ℚ × Option ℚ) :=
  (data.filter fun row =>
      isPresent (getCell row c1) && isPresent (getCell row c2)).map
    fun row => (toNumber (getCell row c1), toNumber (getCell row c2))

/-- Extract the finite pair list, or `none` when some coercion was `NaN`
(in the source a `NaN` poisons every sum, the coefficient, and the
`|r| > 0.5` test, so the pair is dropped). -/
def seqPairs : List (Option ℚ × Option ℚ) → Option (List (ℚ × ℚ))
  | [] => some []
  | (some a, some b) :: rest => (seqPairs rest).map (fun l => (a, b) :: l)
  | _ => none

def sumX (qs : List (ℚ × ℚ)) : ℚ := qs.foldl (fun s p => s + p.1) 0
def sumY (qs : List (ℚ × ℚ)) : ℚ := qs.foldl (fun s p => s + p.2) 0
def sumXY (qs : List (ℚ × ℚ)) : ℚ := qs.foldl (fun s p => s + p.1 * p.2) 0
def sumX2 (qs : List (ℚ × ℚ)) : ℚ := qs.foldl (fun s p => s + p.1 * p.1) 0
def sumY2 (qs : List (ℚ × ℚ)) : ℚ := qs.foldl (fun s p => s + p.2 * p.2) 0

/-- The numerator `n * sumXY - sumX * sumY`. -/
def corrNum (qs : List (ℚ × ℚ)) : ℚ :=
  (qs.length : ℚ) * sumXY qs - sumX qs * sumY qs

/-- The square of the source's denominator:
`(n*sumX2 - sumX^2) * (n*sumY2 - sumY^2)`. -/
def corrDen2 (qs : List (ℚ × ℚ)) : ℚ :=
  ((qs.length : ℚ) * sumX2 qs - sumX qs * sumX qs) *
    ((qs.length : ℚ) * sumY2 qs - sumY qs * sumY qs)

/-- The exact Pearson coefficient the source computes for a pair list. -/
noncomputable def pearson (qs : List (ℚ × ℚ)) : ℝ :=
  (corrNum qs : ℝ) / Real.sqrt ((corrDen2 qs : ℚ) : ℝ)

/-- The body of the pair loop of `findCorrelations`: skip under 5 paired
rows, skip a zero denominator, keep only `|r| > 0.5`. -/
noncomputable def corrOfPair (data : List Row) (p : DataColumn × DataColumn) :
    Option CorrRec :=
  let ps := pairedCells data p.1.name p.2.name
  if ps.length < 5 then none
  else
    match seqPairs ps with
    | none => none
    | some qs =>
      if corrDen2 qs = 0 then none
      else
        let r := pearson qs
        if (1 : ℝ) / 2 < |r| then
          some { columns := (p.1.name, p.2.name)
                 correlation := round2 r
                 strength :=
                   if (4 : ℝ) / 5 < |r| then Strength.strong
                   else Strength.moderate
                 direction :=
                   if 0 < r then Direction.positive else Direction.negative }
        else none
where
  /-- Rounding `toFixed(2)` reparsed, on a real coefficient. -/
  round2 (x : ℝ) : ℝ := ((round (100 * x) : ℤ) : ℝ) / 100

/-- The descending-by-`|correlation|` order of the final
`sort((a, b) => Math.abs(Number(b.correlation)) -
Math.abs(Number(a.correlation)))`. -/
def corrGe (a b : CorrRec) : Prop := |b.correlation| ≤ |a.correlation|

noncomputable instance : DecidableRel corrGe := fun _ _ => Real.decidableLE _ _

instance : IsTotal CorrRec corrGe := ⟨fun _ _ => le_total _ _⟩

instance : IsTrans CorrRec corrGe :=
  ⟨fun _ _ _ h1 h2 => le_trans h2 h1⟩

/-- Function `findCorrelations`: the pair loop followed by the stable sort
descending by the absolute stored coefficient. -/
noncomputable def findCorrelations (data : List Row)
    (columns : List DataColumn) : List CorrRec :=
  if data.isEmpty then []
  else
    ((pairsOf (columns.filter fun c =>
        decide (c.type = ColType.numeric))).filterMap
      (corrOfPair data)).insertionSort corrGe

/-! ## Time-trend detector (`detectTimeTrends`) -/

inductive TrendDir where
  | increasing | decreasing | stable
deriving DecidableEq, Repr

/-- A returned trend.  `percentChange` is `toFixed(2)`-formatted in the
source; the model stores the rounded extended value. -/
structure TrendRec where
  trendDirection : TrendDir
  percentChange : ExtQ
  seasonality : Bool
  movingAverage : List ExtQ
deriving DecidableEq, Repr

/-- The sort key `new Date(row[dateCol]).getTime()` (`NaN` for an
unparseable date). -/
def jsDateKey (v : Value) : ExtQ :=
  match v with
  | vNum q => ExtQ.fin q
  | vNull => ExtQ.fin 0
  | vBool b => ExtQ.fin (if b then 1 else 0)
  | vStr s => (jsDateParse s).elim ExtQ.nan ExtQ.fin
  | vUndef => ExtQ.nan

/-- The rows sorted ascending by parsed date (stable sort). -/
def sortedRows (data : List Row) (dateCol : String) : List Row :=
  data.insertionSort fun a b =>
    ExtQ.leB (jsDateKey (getCell a dateCol)) (jsDateKey (getCell b dateCol)) = true

/-- The value column extracted in date order, `Number`-coerced. -/
def trendValues (data : List Row) (dateCol valueCol : String) : List ExtQ :=
  (sortedRows data dateCol).map fun r => jsNumE (getCell r valueCol)

/-- The slice `values.slice(0, Math.floor(values.length / 4))` averaged. -/
def firstQuarterAvg (data : List Row) (dateCol valueCol : String) : ExtQ :=
  let vs := trendValues data dateCol valueCol
  let fq := vs.take (vs.length / 4)
  ExtQ.div (ExtQ.sum fq) (ExtQ.fin (fq.length : ℚ))

/-- The slice `values.slice(Math.floor(values.length * 3 / 4))` averaged. -/
def lastQuarterAvg (data : List Row) (dateCol valueCol : String) : ExtQ :=
  let vs := trendValues data dateCol valueCol
  let lq := vs.drop (3 * vs.length / 4)
  ExtQ.div (ExtQ.sum lq) (ExtQ.fin (lq.length : ℚ))

/-- The centered 3-point moving average over interior points (the
endpoint `null`s of the source are filtered out of the returned series).
-/
def movingAvgOf (vs : List ExtQ) : List ExtQ :=
  ((vs.zip (vs.drop 1)).zip (vs.drop 2)).map fun p =>
    ExtQ.div (ExtQ.add (ExtQ.add p.1.1 p.1.2) p.2) (ExtQ.fin 3)

/-- Successive first differences `values[i] - values[i-1]`. -/
def trendDiffs (vs : List ExtQ) : List ExtQ :=
  ((vs.drop 1).zip vs).map fun p => ExtQ.sub p.1 p.2

/-- Function `detectTimeTrends`: under 5 rows gives no trend; otherwise the
percent change `(lastAvg - firstAvg) / firstAvg * 100` (computed in
extended arithmetic: a zero `firstAvg` yields `±Infinity`/`NaN`, not an
exception), the `>10` / `<-10` direction thresholds, and the
sign-flip seasonality heuristic.  Exact `0.4`-threshold comparison: the
double product `diffs.length * 0.4` differs from the rational one by
under `10^-14`, while `signChanges` and `2*diffs.length/5` are at least
`1/5` apart whenever they differ, so the comparisons agree.  Nothing in
the `try` block can throw on modelled inputs, so the `catch` arm is not
represented. -/
def detectTimeTrends (data : List Row) (dateCol valueCol : String) :
    Option TrendRec :=
  if data.length < 5 then none
  else
    let vs := trendValues data dateCol valueCol
    let fAvg := firstQuarterAvg data dateCol valueCol
    let lAvg := lastQuarterAvg data dateCol valueCol
    let pc := ExtQ.mul (ExtQ.div (ExtQ.sub lAvg fAvg) fAvg) (ExtQ.fin 100)
    let diffs := trendDiffs vs
    let signChanges := ((diffs.drop 1).zip diffs).countP fun p =>
      (ExtQ.ltB (ExtQ.fin 0) p.1 && ExtQ.ltB p.2 (ExtQ.fin 0)) ||
        (ExtQ.ltB p.1 (ExtQ.fin 0) && ExtQ.ltB (ExtQ.fin 0) p.2)
    some { trendDirection :=
             if ExtQ.ltB (ExtQ.fin 10) pc then TrendDir.increasing
             else if ExtQ.ltB pc (ExtQ.fin (-10)) then TrendDir.decreasing
             else TrendDir.stable
           percentChange := roundE2 pc
           seasonality :=
             decide ((diffs.length : ℚ) * (0.4 : ℚ) < (signChanges : ℚ))
           movingAverage := movingAvgOf vs }

/-! ## Concrete datasets used by the individual claims -/

/-- A bare numeric column descriptor (only `name` and `type` are read by
the outlier/correlation passes). -/
def colNumeric (name : String) : DataColumn :=
  { name := name, type := ColType.numeric, uniqueValues := 0,
    missingValues := 0, missingPercentage := 0, stats? := none }

/-- Five rows with a single numeric column `v` valued `1..5`. -/
def dStats : List Row :=
  [[("v", vNum 1)], [("v", vNum 2)], [("v", vNum 3)], [("v", vNum 4)],
   [("v", vNum 5)]]

/-- Six rows with the values `[1,2,3,4,5,100]` of the outlier example. -/
def dOut6 : List Row :=
  [[("v", vNum 1)], [("v", vNum 2)], [("v", vNum 3)], [("v", vNum 4)],
   [("v", vNum 5)], [("v", vNum 100)]]

/-- Five `10`s plus a `null` cell and an `undefined` cell in column
`v`. -/
def dNullOut : List Row :=
  [[("v", vNum 10)], [("v", vNum 10)], [("v", vNum 10)], [("v", vNum 10)],
   [("v", vNum 10)], [("v", vNull)], [("v", vUndef)]]

/-- One row whose only cell is `null` (an all-missing column). -/
def dAllMissing : List Row := [[("a", vNull)]]

/-- A dataset of 100 rows of `0`, one non-numeric string row, one row of `10`: beyond
the 100-row inference sample, so sample-based and full-dataset column
typing diverge. -/
def dQuality : List Row :=
  List.replicate 100 [("a", vNum 0)] ++ [[("a", vStr "x")], [("a", vNum 10)]]

/-- Five dated rows whose first-quarter value average is zero. -/
def dTrend5 : List Row :=
  [[("d", vNum 1), ("v", vNum 0)], [("d", vNum 2), ("v", vNum 5)],
   [("d", vNum 3), ("v", vNum 5)], [("d", vNum 4), ("v", vNum 10)],
   [("d", vNum 5), ("v", vNum 10)]]

/-- Five rows with `y = 2x`: a perfectly correlated pair. -/
def dCorr5 : List Row :=
  [[("x", vNum 1), ("y", vNum 2)], [("x", vNum 2), ("y", vNum 4)],
   [("x", vNum 3), ("y", vNum 6)], [("x", vNum 4), ("y", vNum 8)],
   [("x", vNum 5), ("y", vNum 10)]]

/-- Ten rows, exactly two of which are structurally identical. -/
def dDup10 : List Row :=
  [[("a", vNum 0)], [("a", vNum 0)], [("a", vNum 1)], [("a", vNum 2)],
   [("a", vNum 3)], [("a", vNum 4)], [("a", vNum 5)], [("a", vNum 6)],
   [("a", vNum 7)], [("a", vNum 8)]]

/-- Four rows: below every 5-row minimum. -/
def dSmall4 : List Row :=
  [[("v", vNum 1)], [("v", vNum 2)], [("v", vNum 3)], [("v", vNum 4)]]

/-! ## General helper lemmas -/

/-- Folding `s + f x` from an accumulator equals the accumulator plus the
mapped sum (the shape of every `reduce((sum, v) => sum + ..., 0)` in the
source). -/
theorem foldl_add_map {α : Type} (f : α → ℚ) (l : List α) (a : ℚ) :
    l.foldl (fun s x => s + f x) a = a + (l.map f).sum := by
  induction l generalizing a with
  | nil => simp
  | cons x xs ih => simp [ih, add_assoc]

/-- Natural-number variant of `foldl_add_map`. -/
theorem foldl_add_natmap {α : Type} (g : α → ℕ) (l : List α) (a : ℕ) :
    l.foldl (fun s x => s + g x) a = a + (l.map g).sum := by
  induction l generalizing a with
  | nil => simp
  | cons x xs ih => simp [ih, add_assoc]

/-- A conditional-increment fold is an offset `countP` (the missing-cell
counter of `analyzeDataQuality`). -/
theorem foldl_count_eq {α : Type} (p : α → Bool) (l : List α) (a : ℕ) :
    l.foldl (fun n v => if p v then n + 1 else n) a = a + l.countP p := by
  induction l generalizing a with
  | nil => simp
  | cons x xs ih =>
    by_cases h : p x <;> simp [ih, h, List.countP_cons] <;> omega

/-- Plain-sum fold (`reduce((sum, v) => sum + v, 0)`). -/
theorem foldl_add_eq_sum (l : List ℚ) (a : ℚ) :
    l.foldl (· + ·) a = a + l.sum := by
  induction l generalizing a with
  | nil => simp
  | cons x xs ih => simp [ih, add_assoc]

/-- Lookup `getD` on a replicated list inside its range. -/
theorem getD_replicate {α : Type} (a d : α) {n i : ℕ} (h : i < n) :
    (List.replicate n a).getD i d = a := by
  induction n generalizing i with
  | zero => omega
  | succ m ih =>
    cases i with
    | zero => rfl
    | succ j => exact ih (Nat.lt_of_succ_lt_succ h)

/-- Counting `countP` on a replicated list. -/
theorem countP_replicate {α : Type} (p : α → Bool) (a : α) (n : ℕ) :
    (List.replicate n a).countP p = if p a then n else 0 := by
  induction n with
  | zero => simp
  | succ m ih =>
    rw [List.replicate_succ, List.countP_cons, ih]
    by_cases h : p a <;> simp [h]

/-- The fold `Math.min(...list)` is a member of the list. -/
theorem foldl_min_mem (v : ℚ) (l : List ℚ) : l.foldl min v ∈ v :: l := by
  induction l generalizing v with
  | nil => simp
  | cons x xs ih =>
    rw [List.foldl_cons]
    rcases List.mem_cons.mp (ih (min v x)) with h | h
    · rcases min_choice v x with he | he
      · exact List.mem_cons.mpr (Or.inl (h.trans he))
      · exact List.mem_cons.mpr (Or.inr (List.mem_cons.mpr
          (Or.inl (h.trans he))))
    · exact List.mem_cons.mpr (Or.inr (List.mem_cons.mpr (Or.inr h)))

/-- The fold `Math.min(...list)` is a lower bound of the list. -/
theorem foldl_min_le (l : List ℚ) :
    ∀ (v : ℚ), ∀ x ∈ v :: l, l.foldl min v ≤ x := by
  induction l with
  | nil => simp
  | cons y ys ih =>
    intro v x hx
    rw [List.foldl_cons]
    rcases List.mem_cons.mp hx with heq | hx
    · rw [heq]
      exact le_trans (ih (min v y) _ (List.mem_cons_self _ _)) (min_le_left _ _)
    · rcases List.mem_cons.mp hx with heq | hx
      · rw [heq]
        exact le_trans (ih (min v y) _ (List.mem_cons_self _ _))
          (min_le_right _ _)
      · exact ih (min v y) x (List.mem_cons_of_mem _ hx)

/-- The fold `Math.max(...list)` is a member of the list. -/
theorem foldl_max_mem (v : ℚ) (l : List ℚ) : l.foldl max v ∈ v :: l := by
  induction l generalizing v with
  | nil => simp
  | cons x xs ih =>
    rw [List.foldl_cons]
    rcases List.mem_cons.mp (ih (max v x)) with h | h
    · rcases max_choice v x with he | he
      · exact List.mem_cons.mpr (Or.inl (h.trans he))
      · exact List.mem_cons.mpr (Or.inr (List.mem_cons.mpr
          (Or.inl (h.trans he))))
    · exact List.mem_cons.mpr (Or.inr (List.mem_cons.mpr (Or.inr h)))

/-- The fold `Math.max(...list)` is an upper bound of the list. -/
theorem le_foldl_max (l : List ℚ) :
    ∀ (v : ℚ), ∀ x ∈ v :: l, x ≤ l.foldl max v := by
  induction l with
  | nil => simp
  | cons y ys ih =>
    intro v x hx
    rw [List.foldl_cons]
    rcases List.mem_cons.mp hx with heq | hx
    · rw [heq]
      exact le_trans (le_max_left _ _) (ih (max v y) _ (List.mem_cons_self _ _))
    · rcases List.mem_cons.mp hx with heq | hx
      · rw [heq]
        exact le_trans (le_max_right _ _)
          (ih (max v y) _ (List.mem_cons_self _ _))
      · exact ih (max v y) x (List.mem_cons_of_mem _ hx)

/-- The head of an ascending sorted list is a lower bound. -/
theorem sorted_head?_lb (l : List ℚ) (hs : l.Sorted (· ≤ ·)) (a : ℚ)
    (ha : l.head? = some a) : ∀ x ∈ l, a ≤ x := by
  match l with
  | [] => simp at ha
  | b :: t =>
    rw [List.head?_cons, Option.some.injEq] at ha
    subst ha
    intro x hx
    rcases List.mem_cons.mp hx with heq | hx2
    · rw [heq]
    · exact List.rel_of_sorted_cons hs x hx2

/-- The last element of an ascending sorted list is an upper bound. -/
theorem sorted_getLast?_ub (l : List ℚ) (hs : l.Sorted (· ≤ ·)) (b : ℚ)
    (hb : l.getLast? = some b) : ∀ x ∈ l, x ≤ b := by
  induction l with
  | nil => simp at hb
  | cons a t ih =>
    intro x hx
    match t, hb with
    | [], hb =>
      rw [List.getLast?_singleton, Option.some.injEq] at hb
      rcases List.mem_singleton.mp hx with heq
      rw [heq, ← hb]
    | c :: u, hb =>
      rw [List.getLast?_cons_cons] at hb
      rcases List.mem_cons.mp hx with heq | hx2
      · have hbmem : b ∈ c :: u := by
          rcases List.mem_getLast?_eq_getLast (by rw [hb]; rfl) with ⟨h1, h2⟩
          rw [h2]
          exact List.getLast_mem h1
        rw [heq]
        exact List.rel_of_sorted_cons hs b hbmem
      · exact ih hs.of_cons hb x hx2

/-- The statistics block satisfies the specification characterization
`statsSpec` on every nonempty value list. -/
theorem numericStatsOf_spec (v : ℚ) (rest : List ℚ) (st : NumStats)
    (h : numericStatsOf (v :: rest) = some st) :
    statsSpec (v :: rest) st := by
  rw [numericStatsOf, Option.some.injEq] at h
  subst h
  refine ⟨List.cons_ne_nil v rest, ?_, ?_, ?_⟩
  · show (v :: rest).foldl (· + ·) 0 / (((v :: rest).length : ℕ) : ℚ) = _
    rw [foldl_add_eq_sum, zero_add]
  · show (v :: rest).foldl (fun s x => s + (x - _) ^ 2) 0 /
        (((v :: rest).length : ℕ) : ℚ) = _
    rw [foldl_add_map, zero_add]
  · intro sorted hperm hsorted
    have hperm2 : List.Perm (jsSortQ (v :: rest)) sorted :=
      (List.perm_insertionSort _ (v :: rest)).trans hperm
    have hsort1 : (jsSortQ (v :: rest)).Sorted (· ≤ ·) :=
      List.sorted_insertionSort _ (v :: rest)
    have heq : jsSortQ (v :: rest) = sorted :=
      List.eq_of_perm_of_sorted hperm2 hsort1 hsorted
    subst heq
    have hne : jsSortQ (v :: rest) ≠ [] := by
      intro hnil
      have hpn : List.Perm (v :: rest) ([] : List ℚ) :=
        (List.perm_insertionSort (· ≤ ·) (v :: rest)).symm.trans
          (hnil ▸ List.Perm.refl _)
      exact List.cons_ne_nil v rest hpn.eq_nil
    refine ⟨?_, ?_, rfl, rfl⟩
    · obtain ⟨a, t, he⟩ := List.exists_cons_of_ne_nil hne
      have hmm : rest.foldl min v ∈ jsSortQ (v :: rest) :=
        (List.mem_insertionSort _).mpr (foldl_min_mem v rest)
      have h1 : a ≤ rest.foldl min v := by
        rw [he] at hmm
        rcases List.mem_cons.mp hmm with heq2 | hmm2
        · rw [heq2]
        · exact List.rel_of_sorted_cons (he ▸ hsort1) _ hmm2
      have h2 : rest.foldl min v ≤ a :=
        foldl_min_le rest v a ((List.mem_insertionSort _).mp
          (he ▸ List.mem_cons_self a t))
      rw [he, List.head?_cons]
      exact congrArg some (le_antisymm h1 h2)
    · obtain ⟨b, hb⟩ : ∃ b, (jsSortQ (v :: rest)).getLast? = some b :=
        ⟨_, List.getLast?_eq_getLast_of_ne_nil hne⟩
      have hbmem : b ∈ jsSortQ (v :: rest) := by
        rcases List.mem_getLast?_eq_getLast (by rw [hb]; rfl) with ⟨h1, h2⟩
        rw [h2]
        exact List.getLast_mem h1
      have h1 : b ≤ rest.foldl max v :=
        le_foldl_max rest v b ((List.mem_insertionSort _).mp hbmem)
      have h2 : rest.foldl max v ≤ b :=
        sorted_getLast?_ub _ hsort1 b hb _
          ((List.mem_insertionSort _).mpr (foldl_max_mem v rest))
      rw [hb]
      exact congrArg some (le_antisymm h1 h2)

/-! ## Claim C2: outlier fences for `[1,2,3,4,5,100]` -/

/-- Claim C2 (counterexample): the claim states Q1=2, Q3=4, IQR=2 and
fences `(-1, 7)` for the column values `[1,2,3,4,5,100]`.  The code takes
`Q3 = sorted[floor(6*0.75)] = sorted[4] = 5`, so the fences actually
reported are `(-2.5, 9.5)`, refuting the stated fence pair. -/
theorem c2_fences_counterexample :
    ((identifyOutliers dOut6 [colNumeric "v"]).lookup "v").map
        (fun i => i.boundaries) =
      some (ExtQ.fin (-5 / 2), ExtQ.fin (19 / 2)) ∧
    ¬ ((identifyOutliers dOut6 [colNumeric "v"]).lookup "v").map
        (fun i => i.boundaries) =
      some (ExtQ.fin (-1), ExtQ.fin 7) := by
  have h : identifyOutliers dOut6 [colNumeric "v"] =
      [("v", ⟨1, 1667 / 100, (ExtQ.fin (-5 / 2), ExtQ.fin (19 / 2)),
        [[("v", vNum 100)]]⟩)] := by
    norm_num [identifyOutliers, flaggedRows, rowFlagged, outlierFences,
      presentValues, getCell, isPresent, toNumber, jsNumE, jsSortE,
      List.insertionSort, List.orderedInsert, ExtQ.leB, ExtQ.ltB, ExtQ.sub,
      ExtQ.add, ExtQ.neg, ExtQ.mul, round2q, colNumeric, dOut6, List.find?,
      List.filter, List.filterMap, round_eq]
  rw [h]
  norm_num [List.lookup]

/-- Claim C2 (amended): for the values `[1,2,3,4,5,100]` the detector
takes Q1 = sorted[1] = 2 and Q3 = sorted[4] = 5 (nearest-rank at
`floor(6*0.25)` and `floor(6*0.75)`), so IQR = 3 and the fences are
`(-2.5, 9.5)`; the value 100 is flagged as the only outlier (count 1,
percentage 16.67, example row the 100-row) and none of the other five
values are flagged. -/
theorem c2_fences_amended :
    identifyOutliers dOut6 [colNumeric "v"] =
      [("v", ⟨1, 1667 / 100, (ExtQ.fin (-5 / 2), ExtQ.fin (19 / 2)),
        [[("v", vNum 100)]]⟩)] ∧
    flaggedRows dOut6 "v" = [[("v", vNum 100)]] := by
  constructor
  · norm_num [identifyOutliers, flaggedRows, rowFlagged, outlierFences,
      presentValues, getCell, isPresent, toNumber, jsNumE, jsSortE,
      List.insertionSort, List.orderedInsert, ExtQ.leB, ExtQ.ltB, ExtQ.sub,
      ExtQ.add, ExtQ.neg, ExtQ.mul, round2q, colNumeric, dOut6, List.find?,
      List.filter, List.filterMap, round_eq]
  · norm_num [flaggedRows, rowFlagged, outlierFences, presentValues,
      getCell, isPresent, toNumber, jsNumE, jsSortE, List.insertionSort,
      List.orderedInsert, ExtQ.leB, ExtQ.ltB, ExtQ.sub, ExtQ.add, ExtQ.neg,
      ExtQ.mul, dOut6, List.find?, List.filter]

/-! ## Claim C5: columns whose sampled values are all missing -/

/-- Claim C5 (counterexample): the claim states an all-missing column is
classified `text`.  On the one-row dataset whose only cell is `null`, the
sampled value list is empty, the vacuous `every`-numeric test succeeds,
and the column is classified `numeric` — not `text`. -/
theorem c5_all_missing_counterexample :
    (detectColumnTypes dAllMissing).map (fun c => c.type) =
      [ColType.numeric] ∧
    ¬ (detectColumnTypes dAllMissing).map (fun c => c.type) =
      [ColType.text] := by
  constructor
  · norm_num [detectColumnTypes, buildColumn, colValues, presentValues,
      sampleOf, sampleSizeOf, getCell, isPresent, toNumber, isNumericish,
      numericSampleValues, dAllMissing, List.find?, List.filter]
  · intro h
    have := List.head_eq_of_cons_eq
      ((by norm_num [detectColumnTypes, buildColumn, colValues,
        presentValues, sampleOf, sampleSizeOf, getCell, isPresent, toNumber,
        isNumericish, numericSampleValues, dAllMissing, List.find?,
        List.filter] :
          (detectColumnTypes dAllMissing).map (fun c => c.type) =
            [ColType.numeric]).symm.trans h)
    exact ColType.noConfusion this

/-- Claim C5 (amended): in every non-empty dataset, a column whose sampled
values are all missing is classified `numeric` (every-on-empty-list is
vacuously true, so the numeric check fires first), with a missing
percentage of 100. -/
theorem c5_all_missing_amended (data : List Row) (col : DataColumn)
    (hmem : col ∈ detectColumnTypes data)
    (hmiss : colValues data col.name = []) :
    col.type = ColType.numeric ∧ col.missingPercentage = 100 := by
  match data with
  | [] => simp [detectColumnTypes] at hmem
  | first :: rest =>
    rcases List.mem_map.mp hmem with ⟨cn, _, hcol⟩
    have hname : col.name = cn := by rw [← hcol]; rfl
    rw [hname] at hmiss
    have hlen : 0 < (sampleOf (first :: rest)).length := by
      simp [sampleOf, sampleSizeOf]
    subst hcol
    constructor
    · simp [buildColumn, hmiss]
    · have hne : ((sampleOf (first :: rest)).length : ℚ) ≠ 0 := by
        exact_mod_cast Nat.pos_iff_ne_zero.mp hlen
      simp [buildColumn, hmiss]
      field_simp

/-- Claim C5 (witness): the amended theorem applied to the concrete
one-row all-`null` dataset. -/
theorem c5_all_missing_witness :
    (buildColumn dAllMissing "a").type = ColType.numeric ∧
    (buildColumn dAllMissing "a").missingPercentage = 100 :=
  c5_all_missing_amended dAllMissing (buildColumn dAllMissing "a")
    (by simp [detectColumnTypes, dAllMissing])
    (by decide)

/-! ## Claim C7: missing-value and duplicate-row totals -/

/-- Claim C7: for every dataset, `analyzeDataQuality` returns a
missing-value total equal to the count, over all rows and columns, of
cells equal to null/undefined/empty string/"null"/"undefined", and a
duplicate-row total equal to the row count minus the number of distinct
structurally-serialized rows; in particular two structurally identical
rows in the 10-row dataset `dDup10` yield a duplicate total of 1, not
2. -/
theorem c7_quality_totals :
    (∀ data : List Row,
      (analyzeDataQuality data).missingValues =
        ((data.map fun row => (row.map Prod.snd).countP isMissingCell).sum) ∧
      (analyzeDataQuality data).duplicateRows =
        data.length - (data.map serializeRow).toFinset.card) ∧
    dDup10.length = 10 ∧
    (analyzeDataQuality dDup10).duplicateRows = 1 ∧
    ¬ (analyzeDataQuality dDup10).duplicateRows = 2 := by
  refine ⟨fun data => ⟨?_, ?_⟩, by decide, by decide, by decide⟩
  · match data with
    | [] => simp [analyzeDataQuality]
    | first :: rest =>
      rw [analyzeDataQuality]
      simp only [List.isEmpty_cons, if_false, Bool.false_eq_true]
      simp only [foldl_count_eq, foldl_add_natmap, Nat.zero_add]
  · match data with
    | [] => simp [analyzeDataQuality]
    | first :: rest =>
      rw [analyzeDataQuality]
      simp only [List.isEmpty_cons, if_false, Bool.false_eq_true,
        List.card_toFinset]

/-! ## Claim C10: the outlier scan tests every row after `Number` coercion -/

/-- Claim C10: in the outlier detector's per-row scan, every row of the
full dataset is tested after `Number` coercion of its cell (the reported
count is the number of flagged rows of the whole dataset, not only of the
non-missing ones); a `null` cell coerces to 0 and is flagged exactly when
0 lies outside the fences, while a cell coercing to `NaN` is never
flagged.  Concretely, on five `10`s plus a `null` row and an `undefined`
row, the `null` row is the unique reported outlier. -/
theorem c10_full_scan_coercion :
    (∀ (data : List Row) (cols : List DataColumn) (name : String)
        (info : OutlierInfo), (name, info) ∈ identifyOutliers data cols →
      info.count =
        (data.filter (rowFlagged name (outlierFences data name))).length) ∧
    (∀ (name : String) (l u : ℚ) (row : Row),
      getCell row name = vNull →
      (rowFlagged name (ExtQ.fin l, ExtQ.fin u) row = true ↔
        (0 < l ∨ u < 0))) ∧
    (∀ (name : String) (fences : ExtQ × ExtQ) (row : Row),
      toNumber (getCell row name) = none →
      rowFlagged name fences row = false) ∧
    identifyOutliers dNullOut [colNumeric "v"] =
      [("v", ⟨1, 1429 / 100, (ExtQ.fin 10, ExtQ.fin 10),
        [[("v", vNull)]]⟩)] := by
  refine ⟨?_, ?_, ?_, ?_⟩
  · intro data cols name info hmem
    rcases List.mem_filterMap.mp hmem with ⟨col, _, heq⟩
    dsimp only at heq
    split_ifs at heq
    rcases Option.some.injEq _ _ ▸ heq with h
    rcases Prod.mk.injEq _ _ _ _ ▸ h with ⟨hn, hi⟩
    rw [← hi, ← hn]
    rfl
  · intro name l u row hcell
    simp [rowFlagged, hcell, jsNumE, toNumber, ExtQ.ltB]
  · intro name fences row hnan
    rcases fences with ⟨f1, f2⟩
    cases f1 <;> cases f2 <;> simp [rowFlagged, jsNumE, hnan, ExtQ.ltB]
  · norm_num [identifyOutliers, flaggedRows, rowFlagged, outlierFences,
      presentValues, getCell, isPresent, toNumber, jsNumE, jsSortE,
      List.insertionSort, List.orderedInsert, ExtQ.leB, ExtQ.ltB, ExtQ.sub,
      ExtQ.add, ExtQ.neg, ExtQ.mul, round2q, colNumeric, dNullOut,
      List.find?, List.filter, List.filterMap, round_eq]

/-- Claim C10 (witness): the null-coercion clause applied at the
concrete `null`-celled row with the fences `(10, 10)`. -/
theorem c10_full_scan_coercion_witness :
    rowFlagged "v" (ExtQ.fin 10, ExtQ.fin 10) [("v", vNull)] = true ↔
      ((0 : ℚ) < 10 ∨ (10 : ℚ) < 0) :=
  c10_full_scan_coercion.2.1 "v" 10 10 [("v", vNull)] rfl

/-! ## Claim C9: membership structure of the outlier mapping -/

/-- Claim C9: the outlier mapping contains an entry for a column name iff
some input column with that name is typed numeric, has at least 5
non-missing values in the dataset, and at least one row is flagged by the
fence test; numeric columns with zero flagged rows are omitted rather
than reported with count 0. -/
theorem c9_outlier_membership (data : List Row) (cols : List DataColumn)
    (name : String) :
    name ∈ (identifyOutliers data cols).map Prod.fst ↔
      ∃ col ∈ cols, col.type = ColType.numeric ∧ col.name = name ∧
        5 ≤ (presentValues data name).length ∧
        flaggedRows data name ≠ [] := by
  constructor
  · intro hmem
    rcases List.mem_map.mp hmem with ⟨⟨n, info⟩, hmem', hfst⟩
    rcases List.mem_filterMap.mp hmem' with ⟨col, hcol, heq⟩
    have hcols := List.mem_filter.mp hcol
    refine ⟨col, hcols.1, of_decide_eq_true hcols.2, ?_⟩
    dsimp only at heq
    split_ifs at heq with h1 h2
    rcases Option.some.injEq _ _ ▸ heq with h
    rcases Prod.mk.injEq _ _ _ _ ▸ h with ⟨hn, _⟩
    have hname : col.name = name := by rw [hn, ← hfst]
    rw [hname] at h1 h2
    exact ⟨hname, Nat.le_of_not_lt h1,
      fun hnil => h2 (by rw [hnil]; rfl)⟩
  · rintro ⟨col, hcol, htype, hname, hlen, hflag⟩
    have hmemf : col ∈ cols.filter fun c =>
        decide (c.type = ColType.numeric) :=
      List.mem_filter.mpr ⟨hcol, decide_eq_true htype⟩
    refine List.mem_map.mpr ⟨(name,
      { count := (flaggedRows data name).length
        percentage := round2q (((flaggedRows data name).length : ℚ) /
          (data.length : ℚ) * 100)
        boundaries := outlierFences data name
        examples := (flaggedRows data name).take 5 }),
      List.mem_filterMap.mpr ⟨col, hmemf, ?_⟩, rfl⟩
    dsimp only
    rw [hname, if_neg (Nat.not_lt.mpr hlen),
      if_neg (by simpa [List.isEmpty_iff] using hflag)]

/-- Claim C9 (witness): the membership characterization instantiated on
the six-value outlier dataset. -/
theorem c9_outlier_membership_witness :
    "v" ∈ (identifyOutliers dOut6 [colNumeric "v"]).map Prod.fst ↔
      ∃ col ∈ [colNumeric "v"], col.type = ColType.numeric ∧
        col.name = "v" ∧ 5 ≤ (presentValues dOut6 "v").length ∧
        flaggedRows dOut6 "v" ≠ [] :=
  c9_outlier_membership dOut6 [colNumeric "v"] "v"

/-! ## Claim C8: fewer than 5 rows degrade gracefully -/

/-- Claim C8: on any dataset with fewer than 5 rows, the outlier detector
returns the empty mapping, the correlation finder returns the empty list,
and the time-trend detector reports no trend for every column pair (the
functions are total, so no exception reaches the caller). -/
theorem c8_under_five_rows (data : List Row) (cols : List DataColumn)
    (dateCol valueCol : String) (hlen : data.length < 5) :
    identifyOutliers data cols = [] ∧ findCorrelations data cols = [] ∧
      detectTimeTrends data dateCol valueCol = none := by
  have hpresent : ∀ name : String, (presentValues data name).length < 5 :=
    fun name => lt_of_le_of_lt
      (le_trans (List.length_filter_le _ _)
        (le_of_eq (List.length_map _ _))) hlen
  refine ⟨?_, ?_, ?_⟩
  · apply List.filterMap_eq_nil.mpr
    intro col _
    dsimp only
    rw [if_pos (hpresent col.name)]
  · rw [findCorrelations]
    split
    · rfl
    · have : ((pairsOf (cols.filter fun c =>
          decide (c.type = ColType.numeric))).filterMap
            (corrOfPair data)) = [] := by
        apply List.filterMap_eq_nil.mpr
        intro p _
        rw [corrOfPair]
        have hp : (pairedCells data p.1.name p.2.name).length < 5 :=
          lt_of_le_of_lt
            (le_of_eq (List.length_map _ _) |>.trans
              (List.length_filter_le _ _)) hlen
        simp only [hp, if_true]
      rw [this]
      rfl
  · rw [detectTimeTrends, if_pos hlen]

/-- Claim C8 (witness): the degradation applied to a concrete 4-row
dataset. -/
theorem c8_under_five_rows_witness :
    identifyOutliers dSmall4 [colNumeric "v"] = [] ∧
      findCorrelations dSmall4 [colNumeric "v"] = [] ∧
      detectTimeTrends dSmall4 "d" "v" = none :=
  c8_under_five_rows dSmall4 [colNumeric "v"] "d" "v" (by decide)

/-! ## Claim C1: numeric column statistics -/

/-- Claim C1: for every numeric column, the stored statistics are exactly
the specification's: min/max the first/last element of the ascending
sorted sample values, mean the arithmetic mean, median via
sort-and-middle-index (averaging the two central elements at even count),
standard deviation the population standard deviation (the square root of
the variance over N, not N-1), and quartiles the sorted values at indices
`floor(N*0.25)`, `floor(N*0.5)`, `floor(N*0.75)`.  In particular for the
column values `[1,2,3,4,5]`: mean 3, median 3, variance 2 (so standard
deviation `sqrt 2`), quartiles `(2,3,4)`. -/
theorem c1_numeric_stats :
    (∀ (data : List Row) (col : DataColumn) (st : NumStats),
      col ∈ detectColumnTypes data → col.stats? = some st →
      statsSpec (numericSampleValues data col.name) st ∧
      colStdDev col = some (Real.sqrt (st.variance : ℝ))) ∧
    (detectColumnTypes dStats).map (fun c => c.stats?) =
      [some ⟨1, 5, 3, 3, 2, (2, 3, 4)⟩] ∧
    (detectColumnTypes dStats).map colStdDev = [some (Real.sqrt 2)] := by
  have hst : (buildColumn dStats "v").stats? =
      some ⟨1, 5, 3, 3, 2, (2, 3, 4)⟩ := by
    have h0 : (buildColumn dStats "v").stats? =
        (if (buildColumn dStats "v").type = ColType.numeric then
          numericStatsOf (numericSampleValues dStats "v") else none) := rfl
    rw [h0, if_pos (by decide : (buildColumn dStats "v").type =
      ColType.numeric),
      (by decide : numericSampleValues dStats "v" = [1, 2, 3, 4, 5])]
    norm_num [numericStatsOf, jsSortQ, List.insertionSort,
      List.orderedInsert, min_def, max_def]
  refine ⟨?_, ?_, ?_⟩
  · intro data col st hmem hstcol
    match data with
    | [] => simp [detectColumnTypes] at hmem
    | first :: rest =>
      rcases List.mem_map.mp hmem with ⟨cn, _, hcol⟩
      subst hcol
      have hstd : colStdDev (buildColumn (first :: rest) cn) =
          some (Real.sqrt (st.variance : ℝ)) := by
        simp only [colStdDev, hstcol, Option.map_some']
      have hsq : (buildColumn (first :: rest) cn).stats? =
          (if (buildColumn (first :: rest) cn).type = ColType.numeric then
            numericStatsOf (numericSampleValues (first :: rest) cn)
          else none) := rfl
      rw [hsq] at hstcol
      split_ifs at hstcol
      refine ⟨?_, hstd⟩
      show statsSpec (numericSampleValues (first :: rest) cn) st
      cases hval : numericSampleValues (first :: rest) cn with
      | nil => rw [hval] at hstcol; simp [numericStatsOf] at hstcol
      | cons v r =>
        rw [hval] at hstcol
        exact numericStatsOf_spec v r st hstcol
  · show ([buildColumn dStats "v"]).map (fun c => c.stats?) = _
    simp [hst]
  · show ([buildColumn dStats "v"]).map colStdDev = _
    simp only [List.map_cons, List.map_nil, colStdDev, hst,
      Option.map_some']
    norm_num

/-- Claim C1 (witness): the general statistics characterization applied
to the concrete `[1,2,3,4,5]` column. -/
theorem c1_numeric_stats_witness :
    statsSpec (numericSampleValues dStats
        (buildColumn dStats "v").name) ⟨1, 5, 3, 3, 2, (2, 3, 4)⟩ ∧
    colStdDev (buildColumn dStats "v") =
      some (Real.sqrt (((2 : ℚ) : ℝ))) :=
  c1_numeric_stats.1 dStats (buildColumn dStats "v") ⟨1, 5, 3, 3, 2, (2, 3, 4)⟩
    (by show buildColumn dStats "v" ∈ [buildColumn dStats "v"]
        exact List.mem_singleton_self _)
    (by
      have h0 : (buildColumn dStats "v").stats? =
          (if (buildColumn dStats "v").type = ColType.numeric then
            numericStatsOf (numericSampleValues dStats "v") else none) := rfl
      rw [h0, if_pos (by decide : (buildColumn dStats "v").type =
        ColType.numeric),
        (by decide : numericSampleValues dStats "v" = [1, 2, 3, 4, 5])]
      norm_num [numericStatsOf, jsSortQ, List.insertionSort,
        List.orderedInsert, min_def, max_def])

/-! ## Claim C6: the data-quality outlier total -/

/-- Claim C6 (amended): the data-quality outlier total is the sum of the
per-column counts in which the row scan runs over the full dataset, but
the column types and quartiles come from `detectColumnTypes` applied to
the data — which itself infers them from the first `min(100, N)` rows,
NOT from a recomputation over the full record set. -/
theorem c6_outlier_total_amended (data : List Row) :
    (analyzeDataQuality data).outliers =
      ((detectColumnTypes data).map fun col =>
        qualityOutlierCount data col).sum := by
  match data with
  | [] => simp [analyzeDataQuality, detectColumnTypes]
  | first :: rest =>
    rw [analyzeDataQuality]
    simp only [List.isEmpty_cons, if_false, Bool.false_eq_true]
    simp only [foldl_add_natmap, Nat.zero_add]

set_option maxRecDepth 8000 in
/-- Claim C6 (counterexample): on 100 rows of `0` followed by a
non-numeric string row and a row of `10`, the code's outlier total is 1
(sample-based column typing sees only the first 100 zeros, yielding a
numeric column with zero-width fences, and the full-data scan flags the
`10`), while the total obtained by recomputing column type/quartiles over
the full record set — as the claim states — is 0, because over the full
data the column is no longer numeric. -/
theorem c6_outlier_total_counterexample :
    (analyzeDataQuality dQuality).outliers = 1 ∧
    claimOutlierTotal dQuality = 0 ∧
    ¬ (analyzeDataQuality dQuality).outliers = claimOutlierTotal dQuality := by
  have htype : (buildColumn dQuality "a").type = ColType.numeric := by decide
  have h0 : (buildColumn dQuality "a").stats? =
      (if (buildColumn dQuality "a").type = ColType.numeric then
        numericStatsOf (numericSampleValues dQuality "a") else none) := rfl
  obtain ⟨st, hsome⟩ :
      ∃ st, numericStatsOf (0 :: List.replicate 99 (0 : ℚ)) = some st :=
    ⟨_, rfl⟩
  have hq : st.quartiles = ((0 : ℚ), (0 : ℚ), (0 : ℚ)) := by
    obtain ⟨-, -, -, h4⟩ :=
      numericStatsOf_spec 0 (List.replicate 99 0) st hsome
    have hperm : (0 :: List.replicate 99 (0 : ℚ)).Perm
        (List.replicate 100 0) := by
      rw [(by decide : List.replicate 100 (0 : ℚ) =
        0 :: List.replicate 99 0)]
    have hsorted : (List.replicate 100 (0 : ℚ)).Sorted (· ≤ ·) :=
      List.pairwise_replicate.mpr (Or.inr le_rfl)
    obtain ⟨-, -, -, hquart⟩ := h4 _ hperm hsorted
    rw [hquart]
    norm_num [getD_replicate]
  have hstats : (buildColumn dQuality "a").stats? = some st := by
    rw [h0, if_pos htype,
      (by decide : numericSampleValues dQuality "a" =
        0 :: List.replicate 99 0), hsome]
  have houtl : (analyzeDataQuality dQuality).outliers = 1 := by
    rw [analyzeDataQuality,
      if_neg (by decide : ¬ dQuality.isEmpty = true)]
    show List.foldl (fun acc col => acc + qualityOutlierCount dQuality col)
      0 [buildColumn dQuality "a"] = 1
    rw [List.foldl_cons, List.foldl_nil, Nat.zero_add]
    rw [qualityOutlierCount, if_pos htype, hstats]
    dsimp only
    rw [hq]
    show dQuality.countP (fun row =>
      match toNumber (getCell row "a") with
      | none => false
      | some v => decide (v < 0 - 1.5 * (0 - 0) ∨ 0 + 1.5 * (0 - 0) < v))
      = 1
    rw [(by norm_num : (0 : ℚ) - 1.5 * (0 - 0) = 0),
      (by norm_num : (0 : ℚ) + 1.5 * (0 - 0) = 0)]
    rw [dQuality, List.countP_append, countP_replicate]
    decide
  have hclaim : claimOutlierTotal dQuality = 0 := by
    have htf : (buildColumnFull dQuality "a").type = ColType.categorical := by
      have h1 : (buildColumnFull dQuality "a").type =
          (if (presentValues dQuality "a").all isNumericish then
            ColType.numeric
          else if (presentValues dQuality "a").all isBoolish then
            ColType.boolean
          else if (presentValues dQuality "a").all isDateish then
            ColType.datetime
          else if ((presentValues dQuality "a").dedup.length : ℚ) <
              (dQuality.length : ℚ) * (0.2 : ℚ) ∧
              0 < (presentValues dQuality "a").length then
            ColType.categorical
          else ColType.text) := rfl
      rw [h1,
        (by decide : ((presentValues dQuality "a").all isNumericish) = false),
        (by decide : ((presentValues dQuality "a").all isBoolish) = false),
        (by decide : ((presentValues dQuality "a").all isDateish) = false),
        (by decide : (presentValues dQuality "a").dedup.length = 3),
        (by decide : (presentValues dQuality "a").length = 102),
        (by decide : dQuality.length = 102)]
      norm_num
    show (([buildColumnFull dQuality "a"]).map fun col =>
      qualityOutlierCount dQuality col).sum = 0
    simp only [List.map_cons, List.map_nil, List.sum_cons, List.sum_nil]
    rw [qualityOutlierCount, if_neg (by rw [htf]; decide)]
    rfl
  refine ⟨houtl, hclaim, ?_⟩
  intro h
  rw [houtl, hclaim] at h
  exact one_ne_zero h


/-! ## Claim C4: zero first-quarter average in the trend detector -/

/-- Claim C4 (amended): on at least 5 rows with a zero first-quarter
average of the date-sorted value series, the detector does NOT skip the
pair — JavaScript division by zero raises no exception — but returns a
trend entry whose percent change is `Infinity` (direction `increasing`),
`-Infinity` (direction `decreasing`), or `NaN` (direction `stable`),
never a finite number; no exception reaches the caller. -/
theorem c4_zero_first_avg_amended (data : List Row)
    (dateCol valueCol : String) (hlen : 5 ≤ data.length)
    (hfa : firstQuarterAvg data dateCol valueCol = ExtQ.fin 0) :
    ∃ t, detectTimeTrends data dateCol valueCol = some t ∧
      ((t.percentChange = ExtQ.pinf ∧
          t.trendDirection = TrendDir.increasing) ∨
       (t.percentChange = ExtQ.ninf ∧
          t.trendDirection = TrendDir.decreasing) ∨
       (t.percentChange = ExtQ.nan ∧
          t.trendDirection = TrendDir.stable)) := by
  rw [detectTimeTrends, if_neg (Nat.not_lt.mpr hlen)]
  refine ⟨_, rfl, ?_⟩
  dsimp only
  rw [hfa]
  cases hL : lastQuarterAvg data dateCol valueCol with
  | fin q =>
    rcases lt_trichotomy 0 q with hq | hq | hq
    · left
      constructor <;>
        simp [ExtQ.sub, ExtQ.neg, ExtQ.add, ExtQ.div, ExtQ.mul, ExtQ.ltB,
          roundE2, hq, hq.ne.symm]
    · right; right
      constructor <;>
        simp [ExtQ.sub, ExtQ.neg, ExtQ.add, ExtQ.div, ExtQ.mul, ExtQ.ltB,
          roundE2, ← hq]
    · right; left
      constructor <;>
        simp [ExtQ.sub, ExtQ.neg, ExtQ.add, ExtQ.div, ExtQ.mul, ExtQ.ltB,
          roundE2, hq, hq.ne, not_lt_of_gt hq]
  | pinf =>
    left
    constructor <;>
      simp [ExtQ.sub, ExtQ.neg, ExtQ.add, ExtQ.div, ExtQ.mul, ExtQ.ltB,
        roundE2]
  | ninf =>
    right; left
    constructor <;>
      simp [ExtQ.sub, ExtQ.neg, ExtQ.add, ExtQ.div, ExtQ.mul, ExtQ.ltB,
        roundE2]
  | nan =>
    right; right
    constructor <;>
      simp [ExtQ.sub, ExtQ.neg, ExtQ.add, ExtQ.div, ExtQ.mul, ExtQ.ltB,
        roundE2]

/-- Claim C4 (counterexample): a concrete 5-row dataset with zero
first-quarter average on which the claim's "reports no trend" fails: the
detector returns a trend with percent change `Infinity` and direction
`increasing`. -/
theorem c4_zero_first_avg_counterexample :
    dTrend5.length = 5 ∧
    firstQuarterAvg dTrend5 "d" "v" = ExtQ.fin 0 ∧
    ¬ detectTimeTrends dTrend5 "d" "v" = none ∧
    (detectTimeTrends dTrend5 "d" "v").map (fun t => t.percentChange) =
      some ExtQ.pinf ∧
    (detectTimeTrends dTrend5 "d" "v").map (fun t => t.trendDirection) =
      some TrendDir.increasing := by
  have hv : trendValues dTrend5 "d" "v" =
      [ExtQ.fin 0, ExtQ.fin 5, ExtQ.fin 5, ExtQ.fin 10, ExtQ.fin 10] := by
    decide
  have hfa : firstQuarterAvg dTrend5 "d" "v" = ExtQ.fin 0 := by
    simp only [firstQuarterAvg, hv]
    norm_num [ExtQ.sum, ExtQ.add, ExtQ.div]
  have hla : lastQuarterAvg dTrend5 "d" "v" = ExtQ.fin 10 := by
    simp only [lastQuarterAvg, hv]
    norm_num [ExtQ.sum, ExtQ.add, ExtQ.div]
  have htr : detectTimeTrends dTrend5 "d" "v" =
      some ⟨TrendDir.increasing, ExtQ.pinf,
        decide ((4 : ℚ) * (0.4 : ℚ) <
          ((((trendDiffs (trendValues dTrend5 "d" "v")).drop 1).zip
            (trendDiffs (trendValues dTrend5 "d" "v"))).countP fun p =>
            (ExtQ.ltB (ExtQ.fin 0) p.1 && ExtQ.ltB p.2 (ExtQ.fin 0)) ||
              (ExtQ.ltB p.1 (ExtQ.fin 0) && ExtQ.ltB (ExtQ.fin 0) p.2) : ℚ)),
        movingAvgOf (trendValues dTrend5 "d" "v")⟩ := by
    rw [detectTimeTrends, if_neg (by decide : ¬ dTrend5.length < 5)]
    dsimp only
    rw [hfa, hla]
    norm_num [ExtQ.sub, ExtQ.neg, ExtQ.add, ExtQ.div, ExtQ.mul, ExtQ.ltB,
      roundE2, hv, trendDiffs]
  refine ⟨by decide, hfa, ?_, ?_, ?_⟩ <;> rw [htr] <;> simp

/-- Claim C4 (witness): the amended behaviour at the concrete 5-row
dataset with a zero first-quarter average. -/
theorem c4_zero_first_avg_witness :
    ∃ t, detectTimeTrends dTrend5 "d" "v" = some t ∧
      ((t.percentChange = ExtQ.pinf ∧
          t.trendDirection = TrendDir.increasing) ∨
       (t.percentChange = ExtQ.ninf ∧
          t.trendDirection = TrendDir.decreasing) ∨
       (t.percentChange = ExtQ.nan ∧
          t.trendDirection = TrendDir.stable)) :=
  c4_zero_first_avg_amended dTrend5 "d" "v" (by decide)
    (by
      have hv : trendValues dTrend5 "d" "v" =
          [ExtQ.fin 0, ExtQ.fin 5, ExtQ.fin 5, ExtQ.fin 10, ExtQ.fin 10] := by
        decide
      simp only [firstQuarterAvg, hv]
      norm_num [ExtQ.sum, ExtQ.add, ExtQ.div])

/-! ## Claim C3: structure of the correlation output -/

/-- Claim C3: every returned correlation record arises from a numeric
column pair with at least 5 jointly non-missing rows and a nonzero
denominator whose exact Pearson coefficient `r` satisfies `|r| > 0.5`
(pairs failing any of these are omitted); its strength is `strong` iff
`|r| > 0.8` and `moderate` otherwise, its direction `positive` iff
`r > 0` and `negative` otherwise, and its stored coefficient is `r`
rounded to two decimals; the returned list is sorted descending by the
absolute stored coefficient. -/
theorem c3_correlations (data : List Row) (cols : List DataColumn) :
    (∀ c ∈ findCorrelations data cols,
      ∃ p ∈ pairsOf (cols.filter fun col =>
          decide (col.type = ColType.numeric)),
        ∃ qs, seqPairs (pairedCells data p.1.name p.2.name) = some qs ∧
          5 ≤ (pairedCells data p.1.name p.2.name).length ∧
          corrDen2 qs ≠ 0 ∧
          (1 : ℝ) / 2 < |pearson qs| ∧
          c.columns = (p.1.name, p.2.name) ∧
          c.correlation = corrOfPair.round2 (pearson qs) ∧
          c.strength = (if (4 : ℝ) / 5 < |pearson qs| then Strength.strong
            else Strength.moderate) ∧
          c.direction = (if 0 < pearson qs then Direction.positive
            else Direction.negative)) ∧
    (findCorrelations data cols).Sorted corrGe := by
  constructor
  · intro c hc
    rw [findCorrelations] at hc
    by_cases he : data.isEmpty
    · rw [if_pos he] at hc
      simp at hc
    · rw [if_neg he] at hc
      rcases List.mem_filterMap.mp ((List.mem_insertionSort corrGe).mp hc)
        with ⟨p, hp, hcp⟩
      refine ⟨p, hp, ?_⟩
      rw [corrOfPair] at hcp
      dsimp only at hcp
      by_cases h1 : (pairedCells data p.1.name p.2.name).length < 5
      · rw [if_pos h1] at hcp
        simp at hcp
      · rw [if_neg h1] at hcp
        cases hqs : seqPairs (pairedCells data p.1.name p.2.name) with
        | none => rw [hqs] at hcp; simp at hcp
        | some qs =>
          rw [hqs] at hcp
          dsimp only at hcp
          by_cases h2 : corrDen2 qs = 0
          · rw [if_pos h2] at hcp
            simp at hcp
          · rw [if_neg h2] at hcp
            by_cases h3 : (1 : ℝ) / 2 < |pearson qs|
            · rw [if_pos h3] at hcp
              rcases Option.some.injEq _ _ ▸ hcp with hrec
              refine ⟨qs, rfl, Nat.not_lt.mp h1, h2, h3, ?_, ?_, ?_, ?_⟩ <;>
                rw [← hrec]
            · rw [if_neg h3] at hcp
              simp at hcp
  · rw [findCorrelations]
    by_cases he : data.isEmpty
    · rw [if_pos he]
      exact List.sorted_nil
    · rw [if_neg he]
      exact List.sorted_insertionSort corrGe _

/-- Claim C3 (witness): the membership characterization applied to the
perfectly correlated pair `y = 2x` over five rows, whose exact
coefficient is 1 and whose record is `(("x","y"), 1.00, strong,
positive)`. -/
theorem c3_correlations_witness :
    ∃ p ∈ pairsOf (([colNumeric "x", colNumeric "y"]).filter fun col =>
        decide (col.type = ColType.numeric)),
      ∃ qs, seqPairs (pairedCells dCorr5 p.1.name p.2.name) = some qs ∧
        5 ≤ (pairedCells dCorr5 p.1.name p.2.name).length ∧
        corrDen2 qs ≠ 0 ∧
        (1 : ℝ) / 2 < |pearson qs| ∧
        ({ columns := ("x", "y"), correlation := 1,
           strength := Strength.strong,
           direction := Direction.positive } : CorrRec).columns =
          (p.1.name, p.2.name) ∧
        ({ columns := ("x", "y"), correlation := 1,
           strength := Strength.strong,
           direction := Direction.positive } : CorrRec).correlation =
          corrOfPair.round2 (pearson qs) ∧
        ({ columns := ("x", "y"), correlation := 1,
           strength := Strength.strong,
           direction := Direction.positive } : CorrRec).strength =
          (if (4 : ℝ) / 5 < |pearson qs| then Strength.strong
            else Strength.moderate) ∧
        ({ columns := ("x", "y"), correlation := 1,
           strength := Strength.strong,
           direction := Direction.positive } : CorrRec).direction =
          (if 0 < pearson qs then Direction.positive
            else Direction.negative) := by
  have hr : pearson [((1 : ℚ), (2 : ℚ)), (2, 4), (3, 6), (4, 8), (5, 10)] =
      1 := by
    rw [pearson,
      (by norm_num [corrNum, sumX, sumY, sumXY] :
        corrNum [((1 : ℚ), (2 : ℚ)), (2, 4), (3, 6), (4, 8), (5, 10)] = 100),
      (by norm_num [corrDen2, sumX, sumY, sumX2, sumY2] :
        corrDen2 [((1 : ℚ), (2 : ℚ)), (2, 4), (3, 6), (4, 8), (5, 10)] =
          10000)]
    rw [show (((10000 : ℚ) : ℝ)) = 100 ^ 2 by norm_num]
    rw [Real.sqrt_sq (by norm_num : (0 : ℝ) ≤ 100)]
    norm_num
  have hco : corrOfPair dCorr5 (colNumeric "x", colNumeric "y") =
      some { columns := ("x", "y"), correlation := 1,
             strength := Strength.strong,
             direction := Direction.positive } := by
    rw [corrOfPair]
    dsimp only [colNumeric]
    rw [if_neg (by decide : ¬ (pairedCells dCorr5 "x" "y").length < 5),
      (by decide : seqPairs (pairedCells dCorr5 "x" "y") =
        some [((1 : ℚ), (2 : ℚ)), (2, 4), (3, 6), (4, 8), (5, 10)])]
    dsimp only
    rw [if_neg (by norm_num [corrDen2, sumX, sumY, sumX2, sumY2] :
      ¬ corrDen2 [((1 : ℚ), (2 : ℚ)), (2, 4), (3, 6), (4, 8), (5, 10)] = 0)]
    rw [if_pos (by rw [hr]; norm_num : (1 : ℝ) / 2 <
      |pearson [((1 : ℚ), (2 : ℚ)), (2, 4), (3, 6), (4, 8), (5, 10)]|)]
    rw [hr]
    norm_num [corrOfPair.round2, round_eq]
  have hEq : findCorrelations dCorr5 [colNumeric "x", colNumeric "y"] =
      [{ columns := ("x", "y"), correlation := 1,
         strength := Strength.strong,
         direction := Direction.positive }] := by
    rw [findCorrelations, if_neg (by decide : ¬ dCorr5.isEmpty = true)]
    show ([(colNumeric "x", colNumeric "y")].filterMap
      (corrOfPair dCorr5)).insertionSort corrGe = _
    rw [List.filterMap_cons, hco]
    simp [List.insertionSort, List.orderedInsert]
  exact (c3_correlations dCorr5 [colNumeric "x", colNumeric "y"]).1
    _ (by rw [hEq]; exact List.mem_singleton_self _)

end SalesReport
